import Mathlib

/-!
A verification development for the Odyssey CDK project's configuration
resolution and resource-assembly engine.

The Python source under `cdk_project/` is shallowly embedded: JSON values
become the inductive `Json` (objects are insertion-ordered association
lists, as Python dicts are), Python dict operations become explicit
functions on those lists, `re.sub` over the `${Name}` placeholder pattern
becomes a character-list scanner, and code that raises exceptions becomes
`Except String` computations whose error strings carry the exception
message.  Source file and line references are given on each definition.
-/

namespace Odyssey

/-- JSON-like values as produced by `json.load`.  Python dicts keep
insertion order and string keys, so objects are association lists. -/
inductive Json where
  | null : Json
  | bool (b : Bool) : Json
  | num (n : Int) : Json
  | str (s : String) : Json
  | arr (elems : List Json) : Json
  | obj (entries : List (String × Json)) : Json

/-- Python `d[k]` / `d.get(k)` on a dict: the value of the unique matching
key.  On association lists with duplicate keys (which a parsed JSON object
never has) the first match is returned. -/
def alookup {α : Type} (k : String) : List (String × α) → Option α
  | [] => none
  | (k', v) :: rest => if k' = k then some v else alookup k rest

/-- The key list of a dict. -/
def keysOf {α : Type} (d : List (String × α)) : List String :=
  d.map Prod.fst

/-- Python truthiness for JSON-like values: `None`, `False`, `0`, `""`,
`[]` and `{}` are falsy. -/
def pyFalsy : Json → Bool
  | .null => true
  | .bool b => !b
  | .num n => n == 0
  | .str s => s == ""
  | .arr elems => elems.isEmpty
  | .obj entries => entries.isEmpty

/-- Python truthiness of `d.get(k)`: a missing key (`None`) is falsy. -/
def pyFalsyOpt (o : Option Json) : Bool :=
  match o with
  | none => true
  | some j => pyFalsy j

/-- Python `d[k] = v`: an existing key keeps its position and gets the new
value, a new key is appended at the end.  (Dict keys are unique, so
replacing the first occurrence is replacing the only one.) -/
def dictSet {α : Type} (d : List (String × α)) (k : String) (v : α) :
    List (String × α) :=
  match d with
  | [] => [(k, v)]
  | (k', v') :: rest => if k' = k then (k, v) :: rest else (k', v') :: dictSet rest k v

/-- Python `a.update(b)` (and `{**a, **b}`): every item of `b` is written
into `a` in order, overriding existing keys at the top level only. -/
def dictUpdate {α : Type} (a b : List (String × α)) : List (String × α) :=
  b.foldl (fun acc kv => dictSet acc kv.1 kv.2) a

/-- Python `d.setdefault(k, v)`: only a missing key is filled in. -/
def setdefault {α : Type} (d : List (String × α)) (k : String) (v : α) :
    List (String × α) :=
  if (alookup k d).isSome then d else d ++ [(k, v)]

theorem alookup_append {α : Type} (k : String) (a b : List (String × α)) :
    alookup k (a ++ b) =
      match alookup k a with
      | some v => some v
      | none => alookup k b := by
  induction a with
  | nil => rfl
  | cons kv rest ih =>
    obtain ⟨k', v⟩ := kv
    by_cases h : k' = k
    · simp [alookup, h]
    · simpa [alookup, h] using ih

theorem alookup_eq_none_of_not_mem_keys {α : Type} {k : String}
    {d : List (String × α)} (h : k ∉ keysOf d) : alookup k d = none := by
  induction d with
  | nil => rfl
  | cons kv rest ih =>
    obtain ⟨k', v⟩ := kv
    simp only [keysOf, List.map_cons, List.mem_cons, not_or] at h
    simp only [alookup, if_neg (Ne.symm h.1)]
    exact ih h.2

theorem alookup_dictSet {α : Type} (d : List (String × α)) (k k' : String)
    (v : α) :
    alookup k' (dictSet d k v) = if k = k' then some v else alookup k' d := by
  induction d with
  | nil =>
    by_cases hkk : k = k' <;> simp [dictSet, alookup, hkk]
  | cons kv rest ih =>
    obtain ⟨k1, v1⟩ := kv
    by_cases h : k1 = k
    · subst h
      by_cases hkk : k1 = k' <;> simp [dictSet, alookup, hkk]
    · by_cases h' : k1 = k'
      · subst h'
        simp [dictSet, alookup, h, Ne.symm h]
      · simp [dictSet, alookup, h, h', ih]

theorem alookup_dictUpdate {α : Type} (a b : List (String × α)) (k : String)
    (hnd : (keysOf b).Nodup) :
    alookup k (dictUpdate a b) =
      match alookup k b with
      | some v => some v
      | none => alookup k a := by
  induction b generalizing a with
  | nil => rfl
  | cons kv rest ih =>
    obtain ⟨kb, vb⟩ := kv
    simp only [keysOf, List.map_cons, List.nodup_cons] at hnd
    have step :
        dictUpdate a ((kb, vb) :: rest) = dictUpdate (dictSet a kb vb) rest :=
      rfl
    rw [step, ih _ hnd.2]
    by_cases h : kb = k
    · subst h
      have hrest : alookup kb rest = none :=
        alookup_eq_none_of_not_mem_keys hnd.1
      simp [alookup, hrest, alookup_dictSet]
    · cases hr : alookup k rest <;>
        simp [alookup, h, alookup_dictSet, hr]

theorem alookup_dictUpdate_of_absent {α : Type} (a b : List (String × α))
    (k : String) (hb : alookup k b = none) :
    alookup k (dictUpdate a b) = alookup k a := by
  induction b generalizing a with
  | nil => rfl
  | cons kv rest ih =>
    obtain ⟨kb, vb⟩ := kv
    by_cases hkb : kb = k
    · simp [alookup, hkb] at hb
    · simp only [alookup, if_neg hkb] at hb
      have step :
          dictUpdate a ((kb, vb) :: rest) = dictUpdate (dictSet a kb vb) rest :=
        rfl
      rw [step, ih _ hb, alookup_dictSet]
      simp [hkb]

theorem alookup_setdefault {α : Type} (d : List (String × α)) (k k' : String)
    (v : α) :
    alookup k' (setdefault d k v) =
      if k = k' then
        match alookup k d with
        | some w => some w
        | none => some v
      else alookup k' d := by
  unfold setdefault
  by_cases hs : (alookup k d).isSome
  · rw [if_pos hs]
    obtain ⟨w, hw⟩ := Option.isSome_iff_exists.mp hs
    by_cases hkk : k = k'
    · subst hkk
      simp [hw]
    · simp [hkk]
  · rw [if_neg hs, alookup_append]
    have hnone : alookup k d = none := Option.not_isSome_iff_eq_none.mp hs
    by_cases hkk : k = k'
    · subst hkk
      simp [hnone, alookup]
    · cases h : alookup k' d <;> simp [alookup, hkk, hnone, h]

end Odyssey

namespace Odyssey

/-! ## Strings: ASCII case mapping and lexicographic order -/

theorem char_toNat_ofNat_valid (n : Nat) (h : n.isValidChar) :
    (Char.ofNat n).toNat = n := by
  unfold Char.ofNat
  rw [dif_pos h]
  rfl

/-- ASCII model of Python `str.lower` (`odyssey_cfg.py:137` applies it to
the environment name); `Char.toLower` maps exactly the basic-latin
uppercase letters, as CPython does on ASCII input. -/
def strLower (s : String) : String :=
  ⟨s.data.map Char.toLower⟩

/-- ASCII model of Python `str.upper` (`dynamodb_builder.py:41,199`). -/
def strUpper (s : String) : String :=
  ⟨s.data.map Char.toUpper⟩

/-- An ASCII upper-case letter. -/
def isUpperAscii (c : Char) : Bool :=
  65 ≤ c.toNat && c.toNat ≤ 90

/-- No character of the string is an ASCII upper-case letter. -/
def noUpper (s : String) : Prop :=
  ∀ c ∈ s.data, isUpperAscii c = false

theorem isUpperAscii_toLower (c : Char) :
    isUpperAscii (Char.toLower c) = false := by
  unfold Char.toLower
  by_cases h : c.toNat ≥ 65 ∧ c.toNat ≤ 90
  · rw [if_pos h]
    have hv : (c.toNat + 32).isValidChar := Or.inl (by omega)
    simp only [isUpperAscii, char_toNat_ofNat_valid _ hv]
    simp only [Bool.and_eq_false_iff, decide_eq_false_iff_not]
    omega
  · rw [if_neg h]
    simp only [isUpperAscii, Bool.and_eq_false_iff, decide_eq_false_iff_not]
    omega

theorem noUpper_strLower (s : String) : noUpper (strLower s) := by
  intro c hc
  simp only [strLower, List.mem_map] at hc
  obtain ⟨c0, -, rfl⟩ := hc
  exact isUpperAscii_toLower c0

/-- Lexicographic comparison of character lists by code point: how Python
compares the strings that `sorted(...)` orders. -/
def charListLe : List Char → List Char → Bool
  | [], _ => true
  | _ :: _, [] => false
  | a :: as, b :: bs =>
    if a.toNat < b.toNat then true
    else if b.toNat < a.toNat then false
    else charListLe as bs

/-- Python `a <= b` on strings. -/
def strLeB (a b : String) : Bool :=
  charListLe a.data b.data

theorem charListLe_trans :
    ∀ {a b c : List Char}, charListLe a b = true → charListLe b c = true →
      charListLe a c = true := by
  intro a
  induction a with
  | nil => intro b c _ _; rfl
  | cons x xs ih =>
    intro b c hab hbc
    cases b with
    | nil => simp [charListLe] at hab
    | cons y ys =>
      cases c with
      | nil => simp [charListLe] at hbc
      | cons z zs =>
        simp only [charListLe] at hab hbc ⊢
        split_ifs at hab hbc ⊢ with h1 h2 h3 h4 h5 h6 <;>
          first
          | rfl
          | omega
          | exact ih hab hbc

theorem charListLe_total (a b : List Char) :
    charListLe a b = true ∨ charListLe b a = true := by
  induction a generalizing b with
  | nil => left; rfl
  | cons x xs ih =>
    cases b with
    | nil => right; rfl
    | cons y ys =>
      simp only [charListLe]
      rcases Nat.lt_trichotomy x.toNat y.toNat with h | h | h
      · left; simp [h]
      · have h1 : ¬ x.toNat < y.toNat := by omega
        have h2 : ¬ y.toNat < x.toNat := by omega
        rcases ih ys with hle | hle
        · left; simp [h1, h2, hle]
        · right; simp [h1, h2, hle]
      · right; simp [h]

end Odyssey

namespace Odyssey

/-! ## Placeholder expansion

`config_manager.py:8` and `lambda_builder.py:11` compile the pattern
`\$\{([A-Za-z0-9_]+)\}`; `config_manager.py:73-74` and
`lambda_builder.py:18` substitute each match with
`str(vars.get(m.group(1), m.group(0)))`: the variable's value when the
identifier is bound, the whole original token when it is not. -/

/-- The character class `[A-Za-z0-9_]` of the placeholder pattern. -/
def identChar (c : Char) : Bool :=
  c.isAlpha || c.isDigit || c = '_'

/-- `_VAR.sub(lambda m: str(vars.get(m.group(1), m.group(0))), s)` as a
left-to-right scan over the character list, with fuel (the scan advances
at least one position per step, so `length` fuel is always enough and
`varSub` instantiates it so): at a `$` immediately followed by `{`, a
non-empty run of identifier characters and `}`, the whole token is
consumed and replaced — by the variable's value inserted verbatim when
bound, by the original token itself when not — and the scan resumes after
the token; at any other character the character is copied and the scan
moves one position right, exactly as `re.sub` looks for the next match. -/
def substGo (vars : List (String × String)) : Nat → List Char → List Char
  | _, [] => []
  | 0, cs => cs
  | fuel + 1, c :: cs =>
    if c = '$' then
      let i := (cs.drop 1).takeWhile identChar
      let r := (cs.drop 1).dropWhile identChar
      if cs.head? = some '{' ∧ r.head? = some '}' ∧ i ≠ [] then
        (match alookup (⟨i⟩ : String) vars with
         | some v => v.data
         | none => '$' :: '{' :: (i ++ ['}'])) ++ substGo vars fuel (r.drop 1)
      else c :: substGo vars fuel cs
    else c :: substGo vars fuel cs

/-- The string-level substitution `_VAR.sub(...)`. -/
def varSub (vars : List (String × String)) (s : String) : String :=
  ⟨substGo vars s.data.length s.data⟩

mutual
/-- `ConfigManager.expand_placeholders` (`config_manager.py:59-79`) and the
identical module-level `expand_placeholders` (`lambda_builder.py:17-21`):
strings are substituted, lists and dicts are rebuilt element-wise in
order, everything else is returned unchanged. -/
def expand_placeholders (vars : List (String × String)) : Json → Json
  | .null => .null
  | .bool b => .bool b
  | .num n => .num n
  | .str s => .str (varSub vars s)
  | .arr elems => .arr (expandArr vars elems)
  | .obj entries => .obj (expandObj vars entries)

/-- The list branch `[self.expand_placeholders(x, vars) for x in obj]`. -/
def expandArr (vars : List (String × String)) : List Json → List Json
  | [] => []
  | x :: xs => expand_placeholders vars x :: expandArr vars xs

/-- The dict branch `{k: self.expand_placeholders(v, vars) for k, v in obj.items()}`. -/
def expandObj (vars : List (String × String)) :
    List (String × Json) → List (String × Json)
  | [] => []
  | (k, v) :: kvs => (k, expand_placeholders vars v) :: expandObj vars kvs
end

theorem expandArr_eq_map (vars : List (String × String)) (xs : List Json) :
    expandArr vars xs = xs.map (expand_placeholders vars) := by
  induction xs with
  | nil => rfl
  | cons x xs ih => simp [expandArr, ih]

theorem expandObj_eq_map (vars : List (String × String))
    (kvs : List (String × Json)) :
    expandObj vars kvs = kvs.map fun kv => (kv.1, expand_placeholders vars kv.2) := by
  induction kvs with
  | nil => rfl
  | cons kv kvs ih =>
    obtain ⟨k, v⟩ := kv
    simp [expandObj, ih]

theorem keysOf_expandObj (vars : List (String × String))
    (kvs : List (String × Json)) :
    keysOf (expandObj vars kvs) = keysOf kvs := by
  induction kvs with
  | nil => rfl
  | cons kv kvs ih =>
    obtain ⟨k, v⟩ := kv
    simp [expandObj, keysOf] at ih ⊢
    exact ih

theorem alookup_expandObj (vars : List (String × String)) (k : String)
    (kvs : List (String × Json)) :
    alookup k (expandObj vars kvs) =
      (alookup k kvs).map (expand_placeholders vars) := by
  induction kvs with
  | nil => rfl
  | cons kv kvs ih =>
    obtain ⟨k', v⟩ := kv
    by_cases h : k' = k <;> simp [expandObj, alookup, h, ih]

theorem substGo_nil (vars : List (String × String)) (fuel : Nat) :
    substGo vars fuel [] = [] := by
  cases fuel <;> rfl

theorem length_dropWhile_le (p : Char → Bool) (l : List Char) :
    (l.dropWhile p).length ≤ l.length := by
  induction l with
  | nil => simp [List.dropWhile]
  | cons a l ih =>
    rw [List.dropWhile_cons]
    by_cases h : p a = true
    · rw [if_pos h]
      exact Nat.le_succ_of_le ih
    · rw [if_neg h]

theorem substGo_fuel_irrel (vars : List (String × String)) :
    ∀ (f1 : Nat) (cs : List Char) (f2 : Nat), cs.length ≤ f1 →
      cs.length ≤ f2 → substGo vars f1 cs = substGo vars f2 cs := by
  intro f1
  induction f1 with
  | zero =>
    intro cs f2 h1 _
    have : cs = [] := List.eq_nil_of_length_eq_zero (Nat.le_zero.mp h1)
    subst this
    rw [substGo_nil, substGo_nil]
  | succ k ih =>
    intro cs f2 h1 h2
    cases cs with
    | nil => rw [substGo_nil, substGo_nil]
    | cons c cs' =>
      cases f2 with
      | zero => simp at h2
      | succ m =>
        simp only [List.length_cons, Nat.succ_le_succ_iff] at h1 h2
        simp only [substGo]
        by_cases hc : c = '$'
        · rw [if_pos hc, if_pos hc]
          by_cases hcond : cs'.head? = some '{' ∧
              ((cs'.drop 1).dropWhile identChar).head? = some '}' ∧
              (cs'.drop 1).takeWhile identChar ≠ []
          · rw [if_pos hcond, if_pos hcond]
            have hlen : (((cs'.drop 1).dropWhile identChar).drop 1).length ≤ cs'.length := by
              have h3 := length_dropWhile_le identChar (cs'.drop 1)
              have h4 := List.length_drop 1 cs'
              have h5 := List.length_drop 1 ((cs'.drop 1).dropWhile identChar)
              omega
            rw [ih _ m (le_trans hlen h1) (le_trans hlen h2)]
          · rw [if_neg hcond, if_neg hcond, ih _ m h1 h2]
        · rw [if_neg hc, if_neg hc, ih _ m h1 h2]

theorem takeWhile_all_append (p : Char → Bool) :
    ∀ (l1 : List Char) (c0 : Char) (l2 : List Char),
      (∀ c ∈ l1, p c = true) → p c0 = false →
      (l1 ++ c0 :: l2).takeWhile p = l1 := by
  intro l1
  induction l1 with
  | nil =>
    intro c0 l2 _ h0
    simp [List.takeWhile_cons, h0]
  | cons a l ih =>
    intro c0 l2 hall h0
    have ha : p a = true := hall a (List.mem_cons_self a l)
    simp only [List.cons_append, List.takeWhile_cons, ha, if_pos]
    rw [ih c0 l2 (fun c hc => hall c (List.mem_cons_of_mem a hc)) h0]

theorem dropWhile_all_append (p : Char → Bool) :
    ∀ (l1 : List Char) (c0 : Char) (l2 : List Char),
      (∀ c ∈ l1, p c = true) → p c0 = false →
      (l1 ++ c0 :: l2).dropWhile p = c0 :: l2 := by
  intro l1
  induction l1 with
  | nil =>
    intro c0 l2 _ h0
    simp [List.dropWhile_cons, h0]
  | cons a l ih =>
    intro c0 l2 hall h0
    have ha : p a = true := hall a (List.mem_cons_self a l)
    simp only [List.cons_append, List.dropWhile_cons, ha, if_pos]
    exact ih c0 l2 (fun c hc => hall c (List.mem_cons_of_mem a hc)) h0

theorem substGo_cons_ne (vars : List (String × String)) {c : Char}
    (hc : c ≠ '$') (fuel : Nat) (cs : List Char) :
    substGo vars (fuel + 1) (c :: cs) = c :: substGo vars fuel cs := by
  simp only [substGo, if_neg hc]

theorem substGo_token (vars : List (String × String)) (id rest : List Char)
    (hne : id ≠ []) (hid : ∀ c ∈ id, identChar c = true) (fuel : Nat)
    (hfuel : id.length + rest.length + 2 ≤ fuel + 1) :
    substGo vars (fuel + 1) ('$' :: '{' :: (id ++ '}' :: rest)) =
      (match alookup (⟨id⟩ : String) vars with
       | some v => v.data
       | none => '$' :: '{' :: (id ++ ['}'])) ++ substGo vars rest.length rest := by
  have hbrace : identChar '}' = false := by decide
  have htake : (id ++ '}' :: rest).takeWhile identChar = id :=
    takeWhile_all_append identChar id '}' rest hid hbrace
  have hdrop : (id ++ '}' :: rest).dropWhile identChar = '}' :: rest :=
    dropWhile_all_append identChar id '}' rest hid hbrace
  simp only [substGo, if_pos rfl, List.drop_succ_cons, List.drop_zero, htake,
    hdrop, List.head?_cons, List.drop_one, List.tail_cons]
  rw [if_pos (show True ∧ True ∧ id ≠ [] from ⟨trivial, trivial, hne⟩),
    if_pos (trivial : True)]
  congr 1
  exact substGo_fuel_irrel vars fuel rest rest.length (by omega) (le_refl _)

/-- A decomposition of a string into literal characters and whole
placeholder tokens.  `Seg.wf` keeps literal characters off `$`, so that
the tokens of the decomposition are exactly the matches the compiled
pattern finds in the rendered string. -/
inductive Seg where
  | lit (c : Char) : Seg
  | tok (id : String) : Seg

/-- The concrete text of a segment: a token `tok id` reads `${id}`. -/
def Seg.render : Seg → List Char
  | .lit c => [c]
  | .tok id => '$' :: '{' :: (id.data ++ ['}'])

/-- The string a segment list denotes. -/
def renderSegs (segs : List Seg) : String :=
  ⟨(segs.map Seg.render).flatten⟩

/-- What one substitution pass makes of a segment: a bound token becomes
the variable's value inserted verbatim, an unbound token stays the literal
original token including its wrapper, a literal character stays itself. -/
def Seg.subst (vars : List (String × String)) : Seg → List Char
  | .lit c => [c]
  | .tok id =>
    match alookup id vars with
    | some v => v.data
    | none => '$' :: '{' :: (id.data ++ ['}'])

/-- The segment-wise substitution of a whole segment list. -/
def substSegs (vars : List (String × String)) (segs : List Seg) : String :=
  ⟨(segs.map (Seg.subst vars)).flatten⟩

def Seg.wf : Seg → Prop
  | .lit c => c ≠ '$'
  | .tok id => id.data ≠ [] ∧ ∀ c ∈ id.data, identChar c = true

instance Seg.decWf : DecidablePred Seg.wf
  | .lit c => inferInstanceAs (Decidable (c ≠ '$'))
  | .tok id =>
    inferInstanceAs (Decidable (id.data ≠ [] ∧ ∀ c ∈ id.data, identChar c = true))

theorem substGo_join_segs (vars : List (String × String)) :
    ∀ (segs : List Seg) (fuel : Nat), (∀ s ∈ segs, Seg.wf s) →
      ((segs.map Seg.render).flatten).length ≤ fuel →
      substGo vars fuel ((segs.map Seg.render).flatten) =
        (segs.map (Seg.subst vars)).flatten := by
  intro segs
  induction segs with
  | nil =>
    intro fuel _ _
    simp [substGo_nil]
  | cons s rest ih =>
    intro fuel hwf hfuel
    have hwfs : Seg.wf s := hwf s (List.mem_cons_self s rest)
    have hwfr : ∀ t ∈ rest, Seg.wf t := fun t ht => hwf t (List.mem_cons_of_mem s ht)
    cases s with
    | lit c =>
      simp only [List.map_cons, List.flatten_cons, Seg.render, List.singleton_append,
        List.length_cons] at hfuel ⊢
      cases fuel with
      | zero => omega
      | succ k =>
        rw [substGo_cons_ne vars hwfs k _]
        rw [ih k hwfr (by omega)]
        simp [Seg.subst]
    | tok id =>
      obtain ⟨hne, hid⟩ := hwfs
      simp only [List.map_cons, List.flatten_cons, Seg.render, List.cons_append,
        List.append_assoc, List.singleton_append, List.nil_append, List.length_cons,
        List.length_append, List.length_nil] at hfuel ⊢
      cases fuel with
      | zero => omega
      | succ k =>
        rw [substGo_token vars id.data ((rest.map Seg.render).flatten) hne hid k
          (by omega)]
        rw [ih _ hwfr (le_refl _)]
        rfl

theorem varSub_renderSegs (vars : List (String × String)) (segs : List Seg)
    (h : ∀ s ∈ segs, Seg.wf s) :
    varSub vars (renderSegs segs) = substSegs vars segs := by
  unfold varSub renderSegs substSegs
  exact congrArg String.mk (substGo_join_segs vars segs _ h (le_refl _))

end Odyssey

namespace Odyssey

/-! ## Validators (`cdk_project/configs/error_handler.py`) -/

mutual
/-- Structural equality of JSON values: Python `==`, as `in`-membership
tests over lists of JSON values use it. -/
def Json.beq : Json → Json → Bool
  | .null, .null => true
  | .bool a, .bool b => a == b
  | .num a, .num b => a == b
  | .str a, .str b => a == b
  | .arr a, .arr b => Json.beqArr a b
  | .obj a, .obj b => Json.beqObj a b
  | _, _ => false

def Json.beqArr : List Json → List Json → Bool
  | [], [] => true
  | a :: as, b :: bs => Json.beq a b && Json.beqArr as bs
  | _, _ => false

def Json.beqObj : List (String × Json) → List (String × Json) → Bool
  | [], [] => true
  | (ka, va) :: as, (kb, vb) :: bs => ka == kb && Json.beq va vb && Json.beqObj as bs
  | _, _ => false
end

instance : BEq Json := ⟨Json.beq⟩

/-- `ErrorHandler.validate_required_fields` (`error_handler.py:59-78`):
collects every required field absent from the dict — presence of the key
is all that is tested, the value is never looked at — and raises one
`ValueError` naming all of them, or passes. -/
def validate_required_fields (data : List (String × Json))
    (required_fields : List String) (context : String) : Except String Unit :=
  let missing_fields := required_fields.filter fun f => (alookup f data).isNone
  if missing_fields.isEmpty then .ok ()
  else .error (context ++ " missing required fields: " ++
    String.intercalate ", " missing_fields)

/-- `ErrorHandler.validate_field_structure` (`error_handler.py:80-108`):
the named field must be present, be a dict, and contain every required
subfield (again by key presence only). -/
def validate_field_structure (data : List (String × Json)) (field_name : String)
    (required_subfields : List String) (context : String) : Except String Unit :=
  match alookup field_name data with
  | none =>
    .error (context ++ " missing required field '" ++ field_name ++ "'")
  | some field_data =>
    match field_data with
    | .obj entries =>
      let missing_subfields := required_subfields.filter fun f => (alookup f entries).isNone
      if missing_subfields.isEmpty then .ok ()
      else .error (context ++ " field '" ++ field_name ++
        "' missing required subfields: " ++ String.intercalate ", " missing_subfields)
    | _ =>
      .error (context ++ " field '" ++ field_name ++ "' must be a dictionary")

/-- `ErrorHandler.validate_enum_value` (`error_handler.py:110-130`). -/
def validate_enum_value (value : Json) (valid_values : List Json)
    (field_name : String) (context : String) : Except String Unit :=
  if valid_values.any fun v => Json.beq value v then .ok ()
  else .error (context ++ " field '" ++ field_name ++ "' must be one of the allowed values")

/-- `ErrorHandler.validate_lambda_exists` (`error_handler.py:296-314`):
raises `KeyError` naming the lambda when its name is not a key of the
registry built by the fleet. -/
def validate_lambda_exists {α : Type} (lambda_name : String)
    (lambdas : List (String × α)) (context : String) : Except String Unit :=
  if (alookup lambda_name lambdas).isSome then .ok ()
  else .error (context ++ " lambda '" ++ lambda_name ++ "' not found in lambdas map")

/-- `ErrorHandler.validate_config_files_provided` (`error_handler.py:316-332`). -/
def validate_config_files_provided (config_files : Option (List String))
    (context : String) : Except String Unit :=
  match config_files with
  | none => .error ("No config_files provided to " ++ context)
  | some files =>
    if files.isEmpty then .error ("No config_files provided to " ++ context)
    else .ok ()

/-- `ErrorHandler.validate_configs_found` (`error_handler.py:334-350`). -/
def validate_configs_found {α : Type} (configs : List α) (context : String) :
    Except String Unit :=
  if configs.isEmpty then .error ("No " ++ context ++ " configurations found")
  else .ok ()

/-- `ErrorHandler.validate_context_keys` (`error_handler.py:352-368`): one
`ValueError` naming every missing context key. -/
def validate_context_keys (missing_keys : List String) (context : String) :
    Except String Unit :=
  if missing_keys.isEmpty then .ok ()
  else .error ("Missing required context keys in " ++ context ++ ": " ++
    String.intercalate ", " missing_keys)

/-- `validate_table_config` (`error_handler.py:547-579`): required top-level
fields, then the `partition_key` shape, then the `sort_key` shape when the
key is present. -/
def validate_table_config (conf : List (String × Json)) (table_name : String) :
    Except String Unit := do
  let context := "Table configuration for " ++ table_name
  let _ ← validate_required_fields conf
    ["table_name", "partition_key", "billing_mode", "pitr", "kms_alias"] context
  let _ ← validate_field_structure conf "partition_key" ["name", "type"] context
  match alookup "sort_key" conf with
  | some _ => validate_field_structure conf "sort_key" ["name", "type"] context
  | none => pure ()

/-- `validate_lambda_config` (`error_handler.py:581-596`). -/
def validate_lambda_config (conf : List (String × Json)) (lambda_name : String) :
    Except String Unit :=
  validate_required_fields conf ["name", "runtime", "memory", "timeout", "handler"]
    ("Lambda configuration for " ++ lambda_name)

/-- `validate_route_config` (`error_handler.py:623-654`). -/
def validate_route_config (conf : List (String × Json)) (route_file : String) :
    Except String Unit := do
  let _ ← validate_required_fields conf ["route_key", "integration"]
    ("Route configuration in " ++ route_file)
  let _ ← validate_field_structure conf "integration" ["type", "lambda_name"]
    ("Route configuration in " ++ route_file)
  let integ ←
    match alookup "integration" conf with
    | some (.obj entries) => Except.ok entries
    | _ => Except.error ("Route configuration in " ++ route_file ++
        " field 'integration' must be a dictionary")
  let t ←
    match alookup "type" integ with
    | some t => Except.ok t
    | none => Except.error "KeyError: 'type'"
  validate_enum_value t [.str "lambda"] "type"
    ("Route integration in " ++ route_file)

end Odyssey

namespace Odyssey

/-! ## Environment resolution (`cdk_project/configs/odyssey_cfg.py`) -/

/-- Python `str(...)` on JSON-like values; exact on the scalars the
modelled code paths feed it.  (No modelled path converts a container to a
string: Python would render element reprs, schematic text here.) -/
def jAsString : Json → String
  | .null => "None"
  | .bool true => "True"
  | .bool false => "False"
  | .num n => toString n
  | .str s => s
  | .arr _ => "[...]"
  | .obj _ => "(dict)"

/-- `GithubCfg` (`odyssey_cfg.py:16-26`); the values come straight from
the `github` context block. -/
structure GithubCfg where
  owner : Json
  repo : Json

/-- `EnvCfg` (`odyssey_cfg.py:28-60`). -/
structure EnvCfg where
  name : String
  account_id : Json
  region : Json
  branch : Json
  connection_id : Option Json := none
  connection_arn : Option Json := none

/-- `EnvCfg.resolved_connection_arn` (`odyssey_cfg.py:48-60`). -/
def EnvCfg.resolved_connection_arn (e : EnvCfg) : Option Json :=
  if !(pyFalsyOpt e.connection_arn) then e.connection_arn
  else if !(pyFalsyOpt e.connection_id) then
    some (.str ("arn:aws:codestar-connections:" ++ jAsString e.region ++ ":" ++
      jAsString e.account_id ++ ":connection/" ++
      (match e.connection_id with
       | some c => jAsString c
       | none => "")))
  else none

/-- `OdysseyCfg` (`odyssey_cfg.py:62-72`). -/
structure OdysseyCfg where
  env : EnvCfg
  github : GithubCfg

/-- `OdysseyCfg.vars` (`odyssey_cfg.py:74-105`): the placeholder variable
set.  `stackAccount`/`stackRegion` model `stack.account`/`stack.region`
(`or` falls back to the environment's values on a falsy one),
`partitionVal` models `stack.partition`, and `extra` values pass through
`str(v)` before being written over the base dict. -/
def OdysseyCfg.vars (cfg : OdysseyCfg) (stackAccount stackRegion : Option String)
    (partitionVal : String) (extra : List (String × String)) :
    List (String × Json) :=
  let base : List (String × Json) :=
    [("EnvName", .str cfg.env.name),
     ("AccountId",
       match stackAccount with
       | some a => if a = "" then cfg.env.account_id else .str a
       | none => cfg.env.account_id),
     ("Region",
       match stackRegion with
       | some r => if r = "" then cfg.env.region else .str r
       | none => cfg.env.region),
     ("Partition", .str partitionVal),
     ("GithubOwner", cfg.github.owner),
     ("GithubRepo", cfg.github.repo),
     ("Branch", cfg.env.branch)]
  let base :=
    match cfg.env.connection_id with
    | some cid => if pyFalsy cid then base else base ++ [("ConnectionId", cid)]
    | none => base
  let base :=
    match cfg.env.resolved_connection_arn with
    | some arn => if pyFalsy arn then base else base ++ [("ConnectionArn", arn)]
    | none => base
  dictUpdate base (extra.map fun kv => (kv.1, Json.str kv.2))

/-- The `ctx.get("env") or "dev"` part of the environment-name expression
(`odyssey_cfg.py:137`).  The source immediately calls `.lower()` on the
chosen value, so a truthy non-string raises `AttributeError`. -/
def rawEnvNameCtx (ctx : List (String × Json)) : Except String String :=
  match alookup "env" ctx with
  | some j =>
    if pyFalsy j then .ok "dev"
    else
      match j with
      | .str s => .ok s
      | _ => .error "AttributeError: no attribute lower"
  | none => .ok "dev"

/-- `(node.try_get_context("odyssey.env") or ctx.get("env") or "dev")`
(`odyssey_cfg.py:137`): the explicit `-c odyssey.env=...` override (a CLI
string) wins when truthy. -/
def rawEnvName (ctx : List (String × Json)) (envOverride : Option String) :
    Except String String :=
  match envOverride with
  | some s => if s = "" then rawEnvNameCtx ctx else .ok s
  | none => rawEnvNameCtx ctx

/-- The resolved environment name: the raw choice lower-cased
(`env_name = (...).lower()`, `odyssey_cfg.py:137`). -/
def envNameOf (ctx : List (String × Json)) (envOverride : Option String) :
    Except String String :=
  (rawEnvName ctx envOverride).map strLower

/-- `ctx.get(k) or {}` where the result is used as a dict
(`odyssey_cfg.py:140,146`).  A truthy non-dict would fail at the
subsequent `.get` in Python; no claim exercises that, and it resolves to
the empty dict here. -/
def pyGetObj (ctx : List (String × Json)) (k : String) :
    List (String × Json) :=
  match alookup k ctx with
  | some (.obj entries) => entries
  | _ => []

/-- Python `d.get(k, default)`. -/
def pyGetD (d : List (String × Json)) (k : String) (dflt : Json) : Json :=
  match alookup k d with
  | some v => v
  | none => dflt

/-- `get_cfg` (`odyssey_cfg.py:119-171`) minus its `lru_cache` wrapper
(modelled separately as `get_cfg_cached`): chooses the environment name
(override, then context `env`, then `"dev"`), lower-cases it, reads the
per-environment block under that lower-cased name, collects every missing
required key (`<env>.account_id`, `github.owner`, `github.repo` — a falsy
value counts as missing) and raises one error naming all of them, and
otherwise returns the configuration. -/
def get_cfg (ctx : List (String × Json)) (envOverride : Option String) :
    Except String OdysseyCfg := do
  let env_name ← envNameOf ctx envOverride
  let region := pyGetD ctx "region" (.str "eu-west-1")
  let env_ctx := pyGetObj ctx env_name
  let account_id := alookup "account_id" env_ctx
  let branch := pyGetD env_ctx "branch" (.str env_name)
  let conn_id := alookup "connection_id" env_ctx
  let conn_arn := alookup "connection_arn" env_ctx
  let gh := pyGetObj ctx "github"
  let owner := alookup "owner" gh
  let repo := alookup "repo" gh
  let missing :=
    (if pyFalsyOpt account_id then [env_name ++ ".account_id"] else []) ++
    (if pyFalsyOpt owner then ["github.owner"] else []) ++
    (if pyFalsyOpt repo then ["github.repo"] else [])
  let _ ← validate_context_keys missing "cdk.json"
  pure {
    env := {
      name := env_name
      account_id := account_id.getD .null
      region := region
      branch := branch
      connection_id := conn_id
      connection_arn := conn_arn }
    github := { owner := owner.getD .null, repo := repo.getD .null } }

/-- The `@lru_cache(maxsize=1)` wrapper of `get_cfg` (`odyssey_cfg.py:119`,
`functools.lru_cache` with `maxsize=1`): a single-entry cache keyed by the
argument (the App/Stack scope).  Scopes are identified by numbers, each
fresh resolution allocates a fresh result identifier, and two calls return
the identical object exactly when they return the same identifier.  A call
for a different scope evicts the single entry. -/
structure CfgCache where
  entry : Option (Nat × Nat)
  nextId : Nat

/-- One call through the size-one cache: a hit returns the cached result
and leaves the state alone; a miss resolves afresh and replaces the single
entry. -/
def get_cfg_cached (st : CfgCache) (scope : Nat) : Nat × CfgCache :=
  match st.entry with
  | some (sc, r) =>
    if sc = scope then (r, st)
    else (st.nextId, ⟨some (scope, st.nextId), st.nextId + 1⟩)
  | none => (st.nextId, ⟨some (scope, st.nextId), st.nextId + 1⟩)

/-- The result identifiers of a sequence of `get_cfg` calls. -/
def runGetCfgCalls : List Nat → CfgCache → List Nat
  | [], _ => []
  | s :: rest, st =>
    let rs := get_cfg_cached st s
    rs.1 :: runGetCfgCalls rest rs.2

end Odyssey

namespace Odyssey

/-! ## ConfigManager (`cdk_project/configs/config_manager.py`) -/

/-- `ConfigManager.CONFIG_ROOT` (`config_manager.py:22`). -/
def CONFIG_ROOT : String := "cdk_project/configs"

/-- `ConfigManager.CONFIG_PATHS` (`config_manager.py:25-32`): the closed
category-to-subdirectory table. -/
def CONFIG_PATHS : List (String × String) :=
  [("policies", "iam/policies"),
   ("tables", "tables"),
   ("ws_apis", "apis/ws"),
   ("ws_routes", "apis/ws/routes"),
   ("lambda_configs", "lambda_configs"),
   ("defaults", "defaults")]

/-- `ConfigManager.get_config_path` (`config_manager.py:39-57`): raises
`ValueError` for a category that is not a key of `CONFIG_PATHS`;
`os.path.join` on these relative paths is plain `/`-joining, and a falsy
`filename` returns the directory path. -/
def get_config_path (config_type : String) (filename : Option String) :
    Except String String :=
  match alookup config_type CONFIG_PATHS with
  | none => .error ("Unknown config type: " ++ config_type)
  | some sub =>
    let base_path := CONFIG_ROOT ++ "/" ++ sub
    match filename with
    | some f => if f = "" then .ok base_path else .ok (base_path ++ "/" ++ f)
    | none => .ok base_path

/-- `ConfigManager.load_json` (`config_manager.py:81-101`) over a snapshot
of the filesystem (`fs` maps each existing path to its parsed JSON):
raises `FileNotFoundError` for a missing path, expands placeholders unless
told not to. -/
def load_json (fs : List (String × Json)) (vars : List (String × String))
    (filepath : String) (expand_vars : Bool) : Except String Json :=
  match alookup filepath fs with
  | none => .error ("Config file not found: " ++ filepath)
  | some data => .ok (if expand_vars then expand_placeholders vars data else data)

/-- `ConfigManager.load_config` (`config_manager.py:103-116`). -/
def load_config (fs : List (String × Json)) (vars : List (String × String))
    (config_type : String) (filename : String) (expand_vars : Bool) :
    Except String Json := do
  let filepath ← get_config_path config_type (some filename)
  load_json fs vars filepath expand_vars

/-- A value used where Python expects a dict (`{**d, **c}`, `conf.update`,
subscripting): anything else raises `TypeError`. -/
def asObjE (j : Json) : Except String (List (String × Json)) :=
  match j with
  | .obj entries => .ok entries
  | _ => .error "TypeError: not a mapping"

/-- `ConfigManager.load_config_with_defaults` (`config_manager.py:118-136`):
`config = {**defaults, **config}` — the config's keys win at the top
level. -/
def load_config_with_defaults (fs : List (String × Json))
    (vars : List (String × String)) (config_type filename : String)
    (defaults_file : Option String) : Except String Json := do
  let config ← load_config fs vars config_type filename true
  match defaults_file with
  | none => pure config
  | some df => do
    let defaults ← load_config fs vars config_type df true
    let d ← asObjE defaults
    let c ← asObjE config
    pure (.obj (dictUpdate d c))

/-- `ConfigManager.load_table_configs` (`config_manager.py:317-352`) on an
explicit file list: loads the defaults fragment once when named
(`or {}` makes a falsy one the empty dict), then pairs each file path with
`{**defaults, **conf}`. -/
def load_table_configs (fs : List (String × Json))
    (vars : List (String × String)) (config_files : List String)
    (defaults_file : Option String) :
    Except String (List (String × List (String × Json))) := do
  let defaults ←
    match defaults_file with
    | some df => do
      let d ← load_config fs vars "tables" df true
      if pyFalsy d then pure [] else asObjE d
    | none => pure []
  config_files.mapM fun filename => do
    let filepath ← get_config_path "tables" (some filename)
    let conf ← load_json fs vars filepath true
    let c ← asObjE conf
    pure (filepath, dictUpdate defaults c)

/-! ## Lambda folder configuration (`cdk_project/builders/lambda_builder.py`) -/

/-- A Lambda source folder under `lambda_src/`: its directory name, its
resolved path, whether it holds `app.py`, and its `config*.json` fragments
as (filename, parsed object) pairs. -/
structure LambdaFolder where
  dirname : String
  path : String
  hasApp : Bool
  files : List (String × List (String × Json))

/-- The insertion step of a stable sort by a string key: the element
goes in front of the first entry whose key is not below its own, so
equal-keyed entries keep their relative order, as Python `sorted` keeps
it. -/
def insertSortedBy {α : Type} (key : α → String) (x : α) : List α → List α
  | [] => [x]
  | y :: ys =>
    if strLeB (key x) (key y) then x :: y :: ys
    else y :: insertSortedBy key x ys

/-- Python `sorted(l, key=...)` with a string key: a stable sort into
lexicographic key order. -/
def sortBy {α : Type} (key : α → String) : List α → List α
  | [] => []
  | x :: xs => insertSortedBy key x (sortBy key xs)

/-- `sorted(folder.glob("config*.json"))` (`lambda_builder.py:47`,
`config_manager.py:195`): the fragments in lexicographic filename order. -/
def sortedConfigFiles (folder : LambdaFolder) :
    List (String × List (String × Json)) :=
  sortBy (fun f => f.1) folder.files

/-- The merge loop `for cf in config_files: conf.update(data)`
(`lambda_builder.py:51-53`): later files override earlier keys at the top
level only. -/
def mergedFolderConf (folder : LambdaFolder) : List (String × Json) :=
  (sortedConfigFiles folder).foldl (fun acc f => dictUpdate acc f.2) []

/-- `load_lambda_config_from_folder` (`lambda_builder.py:40-66`; the
`ConfigManager` variant `config_manager.py:183-220` merges, defaults and
expands identically): merge all `config*.json` in lexicographic order,
fill the five defaults only for still-absent keys, force `code_path`, and
expand placeholders last — after the defaults are in place. -/
def load_lambda_config_from_folder (folder : LambdaFolder)
    (vars : List (String × String)) : List (String × Json) :=
  let conf := mergedFolderConf folder
  let conf := setdefault conf "name" (.str folder.dirname)
  let conf := setdefault conf "runtime" (.str "python3.12")
  let conf := setdefault conf "memory" (.num 256)
  let conf := setdefault conf "timeout" (.num 10)
  let conf := setdefault conf "handler" (.str "app.handler")
  let conf := dictSet conf "code_path" (.str folder.path)
  expandObj vars conf

end Odyssey

namespace Odyssey

/-! ## DynamoDB builder (`cdk_project/builders/dynamodb_builder.py`) -/

/-- `to_attr_type` (`dynamodb_builder.py:28-46`): `(s or "").upper()` then
a closed-map lookup; an unknown name raises `KeyError`. -/
def to_attr_type (s : Json) : Except String String :=
  if pyFalsy s then .error "KeyError: empty attribute type"
  else
    match s with
    | .str t =>
      let u := strUpper t
      if u = "STRING" ∨ u = "NUMBER" ∨ u = "BINARY" then .ok u
      else .error ("KeyError: " ++ u)
    | _ => .error "AttributeError: no attribute upper"

/-- `to_stream_type` (`dynamodb_builder.py:48-66`): a falsy value means no
stream; otherwise a closed-map lookup after upper-casing. -/
def to_stream_type (s : Option Json) : Except String (Option String) :=
  if pyFalsyOpt s then .ok none
  else
    match s with
    | some (.str t) =>
      let u := strUpper t
      if u = "NEW_IMAGE" ∨ u = "OLD_IMAGE" ∨ u = "NEW_AND_OLD_IMAGES" ∨ u = "KEYS_ONLY"
      then .ok (some u)
      else .error ("KeyError: " ++ u)
    | _ => .error "AttributeError: no attribute upper"

/-- One (name, canonical type) attribute of a key schema. -/
structure AttrSpec where
  name : Json
  attrType : String

/-- An attribute read from a validated `{name, type}` sub-dict. -/
def readAttr (conf : List (String × Json)) (field : String) :
    Except String AttrSpec := do
  let entries ←
    match alookup field conf with
    | some (.obj entries) => Except.ok entries
    | _ => Except.error "TypeError: not a mapping"
  let n ←
    match alookup "name" entries with
    | some n => Except.ok n
    | none => Except.error "KeyError: name"
  let tj ←
    match alookup "type" entries with
    | some t => Except.ok t
    | none => Except.error "KeyError: type"
  let t ← to_attr_type tj
  pure ⟨n, t⟩

/-- One GSI of a table spec (`add_gsis`, `dynamodb_builder.py:97-149`;
the projection value is passed through to the provisioning layer). -/
structure GsiSpec where
  index_name : Json
  partition_key : AttrSpec
  sort_key : Option AttrSpec
  projection : Json
  rcu : Option Json
  wcu : Option Json

/-- One iteration of `add_gsis` (`dynamodb_builder.py:111-149`). -/
def build_gsi (i : Nat) (g : Json) : Except String GsiSpec := do
  let entries ← asObjE g
  let ctx := "GSI #" ++ toString i
  let _ ← validate_required_fields entries
    ["index_name", "partition_key", "projection"] ctx
  let _ ← validate_field_structure entries "partition_key" ["name", "type"] ctx
  let pk ← readAttr entries "partition_key"
  let sk ←
    match alookup "sort_key" entries with
    | some skj =>
      if pyFalsy skj then pure none
      else do
        let _ ← validate_field_structure entries "sort_key" ["name", "type"] ctx
        let a ← readAttr entries "sort_key"
        pure (some a)
    | none => pure none
  pure {
    index_name := pyGetD entries "index_name" .null
    partition_key := pk
    sort_key := sk
    projection := pyGetD entries "projection" .null
    rcu := alookup "rcu" entries
    wcu := alookup "wcu" entries }

/-- The resource specification `build_table` hands to the provisioning
layer: key schema, capacity mode, encryption alias, stream mode, TTL,
lifecycle flag, secondary indexes, tags. -/
structure TableSpec where
  table_name : Json
  partition_key : AttrSpec
  sort_key : Option AttrSpec
  billing_mode : String
  rcu : Option Json
  wcu : Option Json
  ttl_attribute : Option Json
  pitr : Json
  stream : Option String
  kms_alias : Json
  retain : Bool
  gsis : List GsiSpec
  tags : List (String × Json)

/-- `build_table` (`dynamodb_builder.py:155-243`) with its
`validate_required_config_fields` decorator: validates, then derives the
spec.  `removal` is RETAIN exactly for the `main` environment. -/
def build_table (name : String) (conf : List (String × Json))
    (env_name : String) : Except String TableSpec := do
  let context := "Table configuration for " ++ name
  let _ ← validate_required_fields conf
    ["table_name", "partition_key", "billing_mode", "pitr", "kms_alias"] "Table"
  let _ ← validate_field_structure conf "partition_key" ["name", "type"] context
  let sk_present := !(pyFalsyOpt (alookup "sort_key" conf))
  let _ ←
    if sk_present then
      validate_field_structure conf "sort_key" ["name", "type"] context
    else pure ()
  let billing ←
    match alookup "billing_mode" conf with
    | some (.str b) => Except.ok (strUpper b)
    | some _ => Except.error "AttributeError: no attribute upper"
    | none => Except.error "KeyError: billing_mode"
  let pk ← readAttr conf "partition_key"
  let sk ←
    if sk_present then (readAttr conf "sort_key").map some else pure none
  let stream ← to_stream_type (alookup "stream" conf)
  let gsis ←
    match alookup "global_secondary_indexes" conf with
    | some (.arr gs) => gs.enum.mapM fun p => build_gsi p.1 p.2
    | some j => if pyFalsy j then pure [] else Except.error "TypeError: not iterable"
    | none => pure []
  pure {
    table_name := pyGetD conf "table_name" .null
    partition_key := pk
    sort_key := sk
    billing_mode := if billing = "PROVISIONED" then "PROVISIONED" else "PAY_PER_REQUEST"
    rcu := if billing = "PROVISIONED" then alookup "rcu" conf else none
    wcu := if billing = "PROVISIONED" then alookup "wcu" conf else none
    ttl_attribute := alookup "ttl_attribute" conf
    pitr := pyGetD conf "pitr" .null
    stream := stream
    kms_alias := pyGetD conf "kms_alias" .null
    retain := env_name = "main"
    gsis := gsis
    tags := pyGetObj conf "tags" }

/-- `Path(filepath).stem` for a filename with a real suffix: everything
before the last dot. -/
def pathStem (filename : String) : String :=
  match filename.data.reverse.dropWhile (fun c => !(c = '.')) with
  | [] => filename
  | _ :: restRev => ⟨restRev.reverse⟩

/-- `DynamoTables.__init__` (`dynamodb_builder.py:273-318`): validates the
file list, loads each named file through
`ConfigManager.load_config("dynamodb", filename)` — note the category
string — derives each logical name (`conf.get("name") or stem`), builds
each table and registers it by logical name.  (A non-string `name` would
be used as a raw dict key in Python; no modelled path produces one.) -/
def dynamoTablesInit (fs : List (String × Json)) (vars : List (String × String))
    (config_files : Option (List String)) (env_name : String) :
    Except String (List (String × TableSpec)) := do
  let _ ← validate_config_files_provided config_files "DynamoTables"
  let files := config_files.getD []
  let table_configs ← files.mapM fun filename => do
    let config ← load_config fs vars "dynamodb" filename true
    pure (filename, config)
  let _ ← validate_configs_found table_configs "table"
  table_configs.foldlM (fun tables fc => do
    let conf ← asObjE fc.2
    let logical_name ←
      if fc.1 = "" then pure "table"
      else
        match alookup "name" conf with
        | some j =>
          if pyFalsy j then pure (pathStem fc.1)
          else
            match j with
            | .str n => Except.ok n
            | _ => Except.error "TypeError: non-string table name"
        | none => pure (pathStem fc.1)
    let table ← build_table logical_name conf env_name
    pure (dictSet tables logical_name table)) []

end Odyssey

namespace Odyssey

/-! ## Lambda fleet and grants (`cdk_project/builders/lambda_builder.py`) -/

/-- An access level of a DynamoDB grant. -/
inductive Access where
  | read : Access
  | write : Access
  | readWrite : Access
deriving DecidableEq

/-- `runtime_from` (`lambda_builder.py:72-83`): `(s or "python3.12").lower()`
then a closed-map lookup; an unknown identifier raises `ValueError`. -/
def runtime_from (s : Option Json) : Except String String := do
  let t ←
    match s with
    | none => Except.ok "python3.12"
    | some j =>
      if pyFalsy j then Except.ok "python3.12"
      else
        match j with
        | .str t => Except.ok t
        | _ => Except.error "AttributeError: no attribute lower"
  let t := strLower t
  if t = "python3.12" ∨ t = "python3.11" ∨ t = "python3.10" ∨
      t = "nodejs18.x" ∨ t = "nodejs20.x" then pure t
  else .error ("Unsupported runtime: " ++ t)

/-- The resource specification of one Lambda function, with the table
grant edges resolved for it. -/
structure LambdaSpec where
  name : String
  function_name : Option Json
  runtime : String
  handler : Json
  code_path : Json
  memory : Json
  timeout : Json
  env : List (String × Json)
  description : Option Json
  tags : List (String × Json)
  grants : List (String × Access)

/-- `build_lambda_function` (`lambda_builder.py:85-101`). -/
def build_lambda_function (logical_name : String)
    (conf : List (String × Json)) : Except String LambdaSpec := do
  let runtime ← runtime_from (alookup "runtime" conf)
  let code_path ←
    match alookup "code_path" conf with
    | some cp => Except.ok cp
    | none => Except.error "KeyError: code_path"
  pure {
    name := logical_name
    function_name := alookup "function_name" conf
    runtime := runtime
    handler := pyGetD conf "handler" (.str "app.handler")
    code_path := code_path
    memory := pyGetD conf "memory" (.num 256)
    timeout := pyGetD conf "timeout" (.num 10)
    env := pyGetObj conf "env"
    description := alookup "description" conf
    tags := pyGetObj conf "tags"
    grants := [] }

/-- `grant_table_access` (`lambda_builder.py:103-115`): for each grant
dict, read `g["table"]`, lower-case `(g.get("access") or "readWrite")`,
look the logical name up in the table registry — a miss raises `KeyError`
naming it — and record the grant edge (`read`, `write`, anything else
`readWrite`).  (A non-string `table` value could never match the
string-keyed registry; no modelled path produces one.) -/
def grant_table_access (grants : List Json)
    (tables : List (String × TableSpec)) :
    Except String (List (String × Access)) :=
  match grants with
  | [] => .ok []
  | g :: gs => do
    let entries ← asObjE g
    let tnameJ ←
      match alookup "table" entries with
      | some t => Except.ok t
      | none => Except.error "KeyError: table"
    let tname ←
      match tnameJ with
      | .str t => Except.ok t
      | _ => Except.error "TypeError: non-string table name in grant"
    let access ←
      match alookup "access" entries with
      | none => Except.ok "readwrite"
      | some a =>
        if pyFalsy a then Except.ok "readwrite"
        else
          match a with
          | .str s => Except.ok (strLower s)
          | _ => Except.error "AttributeError: no attribute lower"
    match alookup tname tables with
    | none =>
      Except.error ("Table logical name '" ++ tname ++ "' not found for grants.")
    | some _ =>
      let a :=
        if access = "read" then Access.read
        else if access = "write" then Access.write
        else Access.readWrite
      let rest ← grant_table_access gs tables
      pure ((tname, a) :: rest)

/-- `find_lambda_dirs` (`lambda_builder.py:31-38`): the sub-directories in
sorted name order, keeping those holding an `app.py`. -/
def find_lambda_dirs (folders : List LambdaFolder) : List LambdaFolder :=
  (sortBy (fun f => f.dirname) folders).filter (·.hasApp)

/-- `LambdaFleet.__init__` (`lambda_builder.py:148-172`): for each
discovered folder, merge its configuration, build the function, resolve
its table grants against the registry from the storage stage, and register
it under its logical name.  (Policy-file attachment, `lambda_builder.py:164-167`,
is filesystem- and IAM-side work outside every claim and not modelled.) -/
def lambdaFleetInit (folders : List LambdaFolder)
    (vars : List (String × String)) (tables : List (String × TableSpec)) :
    Except String (List (String × LambdaSpec)) :=
  (find_lambda_dirs folders).foldlM
    (fun functions folder => do
      let conf := load_lambda_config_from_folder folder vars
      let logical_name ←
        match alookup "name" conf with
        | some (.str n) => Except.ok n
        | some _ => Except.error "TypeError: non-string lambda name"
        | none => Except.error "KeyError: name"
      let fn ← build_lambda_function logical_name conf
      let grantsJ ←
        match alookup "dynamodb_access" conf with
        | some (.arr gs) => Except.ok gs
        | some j => if pyFalsy j then Except.ok [] else Except.error "TypeError: not iterable"
        | none => Except.ok []
      let grants ← grant_table_access grantsJ tables
      pure (dictSet functions logical_name { fn with grants := grants }))
    []

/-! ## WebSocket APIs (`cdk_project/builders/ws_api_builder.py`) -/

/-- One route resource: its key and the logical name of the compute
function it integrates with. -/
structure RouteSpec where
  route_key : Json
  lambda_name : String

/-- The per-route body of `add_routes_from_dir` (`ws_api_builder.py:119-194`)
over already-loaded route files (filename, parsed object): validate the
required fields, the `integration` shape and the integration type, then
resolve `lambda_name` against the fleet registry — a miss raises `KeyError`
naming the lambda — and record the route. -/
def add_routes_from_dir (route_files : List (String × List (String × Json)))
    (lambdas : List (String × LambdaSpec)) : Except String (List RouteSpec) :=
  route_files.foldlM
    (fun created rf => do
      let ctx := "Route configuration in " ++ rf.1
      let rc := rf.2
      let _ ← validate_required_fields rc ["route_key", "integration"] ctx
      let route_key := pyGetD rc "route_key" .null
      let _ ← validate_field_structure rc "integration" ["type", "lambda_name"] ctx
      let integ ←
        match alookup "integration" rc with
        | some (.obj entries) => Except.ok entries
        | _ => Except.error (ctx ++ " field integration must be a dictionary")
      let t ←
        match alookup "type" integ with
        | some t => Except.ok t
        | none => Except.error "KeyError: type"
      let _ ← validate_enum_value t [.str "lambda"] "type"
        ("Route integration in " ++ rf.1)
      let lambda_name ←
        match alookup "lambda_name" integ with
        | some (.str n) => Except.ok n
        | some _ => Except.error "TypeError: non-string lambda name"
        | none => Except.error "KeyError: lambda_name"
      let _ ← validate_lambda_exists lambda_name lambdas ctx
      pure (created ++ [⟨route_key, lambda_name⟩]))
    []

/-- `WebSocketApis.__init__` (`ws_api_builder.py:250-329`): its first act
is `self.config_mgr.find_api_dirs("ws_apis")`, but `ConfigManager` defines
no method `find_api_dirs` (it defines `find_api_directories`, which takes
no argument), so constructing the stage unconditionally raises
`AttributeError` before any API is built.  The per-route logic it would
have driven is modelled as `add_routes_from_dir`. -/
def wsApisInit : Except String (List RouteSpec) :=
  .error "AttributeError: ConfigManager object has no attribute find_api_dirs"

/-- The resource graph a successful assembly would hand to the
provisioning layer. -/
structure ChatBackendResources where
  tables : List (String × TableSpec)
  lambdas : List (String × LambdaSpec)
  routes : List RouteSpec

/-- `ChatBackendStack.__init__` (`stacks/chat_backend_stack.py:33-79`):
stage 1 builds the DynamoDB tables from `config_files=["messages.json"]`,
stage 2 the lambda fleet against the table registry, stage 3 the WebSocket
APIs against the lambda registry.  A failure at any stage propagates and
aborts the whole assembly with no resource graph. -/
def chatBackendInit (fs : List (String × Json)) (vars : List (String × String))
    (folders : List LambdaFolder) (env_name : String) :
    Except String ChatBackendResources := do
  let tables ← dynamoTablesInit fs vars (some ["messages.json"]) env_name
  let lambdas ← lambdaFleetInit folders vars tables
  let routes ← wsApisInit
  pure ⟨tables, lambdas, routes⟩

end Odyssey

namespace Odyssey

/-! ## Sortedness and permutation facts about `sortBy` -/

theorem mem_insertSortedBy {α : Type} (key : α → String) (x z : α) :
    ∀ l : List α, z ∈ insertSortedBy key x l → z = x ∨ z ∈ l := by
  intro l
  induction l with
  | nil =>
    intro hz
    simp [insertSortedBy] at hz
    exact Or.inl hz
  | cons y ys ih =>
    intro hz
    by_cases h : strLeB (key x) (key y)
    · simp only [insertSortedBy, if_pos h, List.mem_cons] at hz
      rcases hz with h1 | h1 | h1
      · exact Or.inl h1
      · exact Or.inr (List.mem_cons.mpr (Or.inl h1))
      · exact Or.inr (List.mem_cons.mpr (Or.inr h1))
    · simp only [insertSortedBy, if_neg h, List.mem_cons] at hz
      rcases hz with h1 | h1
      · exact Or.inr (List.mem_cons.mpr (Or.inl h1))
      · rcases ih h1 with h2 | h2
        · exact Or.inl h2
        · exact Or.inr (List.mem_cons.mpr (Or.inr h2))

theorem strLeB_total' (a b : String) : strLeB a b = true ∨ strLeB b a = true :=
  charListLe_total a.data b.data

theorem pairwise_insertSortedBy {α : Type} (key : α → String) (x : α)
    (l : List α) (hp : l.Pairwise fun a b => strLeB (key a) (key b) = true) :
    (insertSortedBy key x l).Pairwise fun a b => strLeB (key a) (key b) = true := by
  induction l with
  | nil => simp [insertSortedBy]
  | cons y ys ih =>
    rw [List.pairwise_cons] at hp
    by_cases h : strLeB (key x) (key y)
    · simp only [insertSortedBy, if_pos h]
      refine List.Pairwise.cons ?_ (List.Pairwise.cons hp.1 hp.2)
      intro z hz
      rcases List.mem_cons.mp hz with rfl | hz'
      · exact h
      · exact charListLe_trans h (hp.1 z hz')
    · simp only [insertSortedBy, if_neg h]
      refine List.Pairwise.cons ?_ (ih hp.2)
      intro z hz
      rcases mem_insertSortedBy key x z ys hz with h2 | hz'
      · rcases strLeB_total' (key x) (key y) with h1 | h1
        · exact absurd h1 h
        · rw [h2]
          exact h1
      · exact hp.1 z hz'

theorem perm_insertSortedBy {α : Type} (key : α → String) (x : α) :
    ∀ l : List α, (insertSortedBy key x l).Perm (x :: l) := by
  intro l
  induction l with
  | nil => simp [insertSortedBy]
  | cons y ys ih =>
    by_cases h : strLeB (key x) (key y)
    · simp [insertSortedBy, if_pos h]
    · simp only [insertSortedBy, if_neg h]
      have h1 : (y :: insertSortedBy key x ys).Perm (y :: x :: ys) :=
        List.Perm.cons y ih
      exact h1.trans (List.Perm.swap x y ys)

theorem sortBy_pairwise {α : Type} (key : α → String) (l : List α) :
    (sortBy key l).Pairwise fun a b => strLeB (key a) (key b) = true := by
  induction l with
  | nil => simp [sortBy]
  | cons x xs ih => exact pairwise_insertSortedBy key x _ ih

theorem sortBy_perm {α : Type} (key : α → String) (l : List α) :
    (sortBy key l).Perm l := by
  induction l with
  | nil => simp [sortBy]
  | cons x xs ih =>
    exact ((perm_insertSortedBy key x (sortBy key xs)).trans
      (List.Perm.cons x ih))

end Odyssey

namespace Odyssey

/-! ## The claims -/

/-- The `messages` storage fragment of the end-to-end scenario: partition
key `pk`/`STRING`, placed where `CONFIG_PATHS` maps the `tables`
category. -/
def messagesJson : Json :=
  .obj [("name", .str "messages"),
        ("table_name", .str "odyssey-messages-${EnvName}"),
        ("partition_key", .obj [("name", .str "pk"), ("type", .str "STRING")]),
        ("billing_mode", .str "PAY_PER_REQUEST"),
        ("pitr", .bool true),
        ("kms_alias", .str "alias/odyssey-${EnvName}")]

/-- The filesystem snapshot of the scenario: the one table fragment, at
the path `get_config_path "tables" "messages.json"` resolves to. -/
def demoFs : List (String × Json) :=
  [("cdk_project/configs/tables/messages.json", messagesJson)]

def demoVars : List (String × String) :=
  [("EnvName", "dev")]

/-- The one lambda folder of the scenario: `chat/app.py` plus a
`config.json` granting `{table: "messages", access: "read"}`. -/
def chatFolder : LambdaFolder :=
  { dirname := "chat"
    path := "lambda_src/chat"
    hasApp := true
    files := [("config.json",
      [("dynamodb_access",
        .arr [.obj [("table", .str "messages"), ("access", .str "read")]])])] }

/-- Claim C1 (code bug): the end-to-end assembly of `ChatBackendStack` —
one valid `messages` table fragment, one lambda folder granting read on
it — does not succeed: `DynamoTables.__init__` passes the category string
`"dynamodb"` to `ConfigManager.load_config`, but `CONFIG_PATHS` keys the
table directory under `"tables"` and has no `"dynamodb"` entry, so
`get_config_path` raises `ValueError("Unknown config type: dynamodb")`
before any resource is built and the whole assembly aborts.  The last
conjunct shows the scenario itself is well-formed: the fragment is on
disk under the `tables` directory and `build_table` accepts it. -/
theorem C1_assembly_fails_unknown_config_type :
    chatBackendInit demoFs demoVars [chatFolder] "dev" =
      .error "Unknown config type: dynamodb" ∧
    dynamoTablesInit demoFs demoVars (some ["messages.json"]) "dev" =
      .error "Unknown config type: dynamodb" ∧
    alookup "dynamodb" CONFIG_PATHS = none ∧
    alookup "tables" CONFIG_PATHS = some "tables" ∧
    (do
      let j ← load_json demoFs demoVars "cdk_project/configs/tables/messages.json" true
      let c ← asObjE j
      build_table "messages" c "dev" : Except String TableSpec).isOk = true :=
  ⟨rfl, rfl, rfl, rfl, rfl⟩

/-- Claim C2: the merge override law.  All three merge sites —
`load_config_with_defaults` (`{**defaults, **config}`),
`load_table_configs` (`{**defaults, **conf}`) and the per-folder
`conf.update(data)` loop — are the one operation `dictUpdate`, and for
every two fragments sharing a top-level key `K` the merged value at `K`
is the second fragment's value, whatever the first held there (also a
non-empty nested dict or list: `F1` is universally quantified). -/
theorem C2_merge_override_law (F1 F2 : List (String × Json)) (K : String)
    (v : Json) (hnd : (keysOf F2).Nodup) (hk : alookup K F2 = some v) :
    alookup K (dictUpdate F1 F2) = some v := by
  rw [alookup_dictUpdate F1 F2 K hnd, hk]

/-- Witness for C2 at a concrete input: the first fragment holds a
non-empty nested dict at `"a"`, the second a string, and the merge yields
the second's value. -/
theorem C2_merge_override_law_witness :
    (keysOf [("a", Json.str "two")]).Nodup ∧
    alookup "a" [("a", Json.str "two")] = some (Json.str "two") ∧
    alookup "a" (dictUpdate
      [("a", Json.obj [("nested", Json.num 1), ("deep", Json.bool true)]),
       ("other", Json.null)]
      [("a", Json.str "two")]) = some (Json.str "two") :=
  ⟨by decide, rfl,
    C2_merge_override_law
      [("a", Json.obj [("nested", Json.num 1), ("deep", Json.bool true)]),
       ("other", Json.null)]
      [("a", Json.str "two")] "a" (Json.str "two") (by decide) rfl⟩

end Odyssey

namespace Odyssey

/-- Claim C3: placeholder expansion correctness.  For every variable map
and every string that decomposes into literal characters (off `$`) and
whole `${identifier}` tokens (`identifier` a non-empty run of
`[A-Za-z0-9_]`), the substitution replaces exactly the tokens whose
identifier is bound — each by its value — and leaves every unbound token
as the literal original text including the `${}` wrapper; no input raises.
Lists and dicts are rebuilt element-wise preserving order and keys, other
scalars are returned unchanged, and in particular
`expand_placeholders("${Unknown}", {})` is `"${Unknown}"`. -/
theorem C3_expand_placeholders_spec :
    (∀ (vars : List (String × String)) (segs : List Seg),
        (∀ s ∈ segs, Seg.wf s) →
        varSub vars (renderSegs segs) = substSegs vars segs) ∧
    (∀ (vars : List (String × String)) (s : String),
        expand_placeholders vars (.str s) = .str (varSub vars s)) ∧
    (∀ (vars : List (String × String)) (elems : List Json),
        expand_placeholders vars (.arr elems) =
          .arr (elems.map (expand_placeholders vars))) ∧
    (∀ (vars : List (String × String)) (entries : List (String × Json)),
        expand_placeholders vars (.obj entries) =
          .obj (entries.map fun kv => (kv.1, expand_placeholders vars kv.2)) ∧
        keysOf (expandObj vars entries) = keysOf entries) ∧
    (∀ vars : List (String × String), expand_placeholders vars .null = .null) ∧
    (∀ (vars : List (String × String)) (b : Bool),
        expand_placeholders vars (.bool b) = .bool b) ∧
    (∀ (vars : List (String × String)) (n : Int),
        expand_placeholders vars (.num n) = .num n) ∧
    expand_placeholders [] (.str "${Unknown}") = .str "${Unknown}" := by
  refine ⟨varSub_renderSegs, fun vars s => rfl, ?_, ?_, fun vars => rfl,
    fun vars b => rfl, fun vars n => rfl, rfl⟩
  · intro vars elems
    rw [show expand_placeholders vars (.arr elems) = .arr (expandArr vars elems)
      from rfl, expandArr_eq_map]
  · intro vars entries
    exact ⟨by
      rw [show expand_placeholders vars (.obj entries) = .obj (expandObj vars entries)
        from rfl, expandObj_eq_map],
      keysOf_expandObj vars entries⟩

/-- Claim C4: single-pass expansion.  A substituted value is inserted
verbatim and never re-scanned: whenever the map binds `Name` to any
string `v` — also one that itself contains `${...}` syntax — expanding the
token `${Name}` yields exactly `v`, tokens intact.  Expansion is total
(it is a Lean function), so it terminates on every input regardless of
cyclic variable definitions; the last two conjuncts run one cycle
(`A ↦ "${B}"`, `B ↦ "${A}"`) one pass deep. -/
theorem C4_single_pass_expansion :
    (∀ (vars : List (String × String)) (name v : String),
        name.data ≠ [] → (∀ c ∈ name.data, identChar c = true) →
        alookup name vars = some v →
        varSub vars (renderSegs [Seg.tok name]) = v) ∧
    varSub [("Name", "${Other}")] "${Name}" = "${Other}" ∧
    varSub [("A", "${B}"), ("B", "${A}")] "${A}" = "${B}" ∧
    varSub [("A", "${B}"), ("B", "${A}")] "${B}" = "${A}" := by
  refine ⟨?_, rfl, rfl, rfl⟩
  intro vars name v hne hid hbound
  rw [varSub_renderSegs vars [Seg.tok name] ?wf]
  case wf =>
    intro s hs
    rw [List.mem_singleton.mp hs]
    exact ⟨hne, hid⟩
  unfold substSegs
  simp [Seg.subst, hbound]

end Odyssey

namespace Odyssey

/-- Claim C5: missing-field batching.  Whenever two (or more) distinct
required fields are absent, `validate_required_fields` raises exactly one
error — the one message listing `required.filter (absent)` —
and that list contains every absent required field, not only the first.
Likewise `get_cfg` on an empty context, where the account id, the GitHub
owner and the GitHub repo are all absent, raises one error naming all
three keys; the last conjunct runs the field check on a concrete
two-absent-fields input. -/
theorem C5_missing_field_batching :
    (∀ (data : List (String × Json)) (required : List String)
        (context : String) (f1 f2 : String),
        f1 ∈ required → f2 ∈ required → f1 ≠ f2 →
        alookup f1 data = none → alookup f2 data = none →
        validate_required_fields data required context =
          .error (context ++ " missing required fields: " ++
            String.intercalate ", "
              (required.filter fun f => (alookup f data).isNone)) ∧
        f1 ∈ required.filter (fun f => (alookup f data).isNone) ∧
        f2 ∈ required.filter (fun f => (alookup f data).isNone) ∧
        (∀ f ∈ required, alookup f data = none →
          f ∈ required.filter fun f' => (alookup f' data).isNone)) ∧
    get_cfg [] none =
      .error "Missing required context keys in cdk.json: dev.account_id, github.owner, github.repo" ∧
    validate_required_fields [("partition_key", .null)]
        ["table_name", "partition_key", "billing_mode"] "Table" =
      .error "Table missing required fields: table_name, billing_mode" := by
  refine ⟨?_, rfl, rfl⟩
  intro data required context f1 f2 h1 h2 hne ha1 ha2
  have hm1 : f1 ∈ required.filter fun f => (alookup f data).isNone :=
    List.mem_filter.mpr ⟨h1, by simp [ha1]⟩
  have hm2 : f2 ∈ required.filter fun f => (alookup f data).isNone :=
    List.mem_filter.mpr ⟨h2, by simp [ha2]⟩
  refine ⟨?_, hm1, hm2, ?_⟩
  · simp only [validate_required_fields]
    rw [if_neg ?nonempty]
    case nonempty =>
      rw [List.isEmpty_iff]
      exact List.ne_nil_of_mem hm1
  · intro f hf hnone
    exact List.mem_filter.mpr ⟨hf, by simp [hnone]⟩

end Odyssey

namespace Odyssey

/-- The value the last fragment (in list order) binding `k` gives it: the
reference semantics of "later files override earlier ones". -/
def lastBound (files : List (String × List (String × Json))) (k : String) :
    Option Json :=
  files.foldl
    (fun acc f =>
      match alookup k f.2 with
      | some v => some v
      | none => acc)
    none

theorem lastBound_acc (k : String) :
    ∀ (files : List (String × List (String × Json))) (a : Option Json),
      files.foldl
          (fun acc f =>
            match alookup k f.2 with
            | some v => some v
            | none => acc) a =
        match lastBound files k with
        | some v => some v
        | none => a := by
  intro files
  induction files with
  | nil => intro a; rfl
  | cons f fs ih =>
    intro a
    have hstep :
        (f :: fs).foldl
            (fun acc g =>
              match alookup k g.2 with
              | some v => some v
              | none => acc) a =
          fs.foldl
            (fun acc g =>
              match alookup k g.2 with
              | some v => some v
              | none => acc)
            (match alookup k f.2 with
             | some v => some v
             | none => a) := rfl
    have hl :
        lastBound (f :: fs) k =
          fs.foldl
            (fun acc g =>
              match alookup k g.2 with
              | some v => some v
              | none => acc)
            (match alookup k f.2 with
             | some v => some v
             | none => none) := rfl
    rw [hstep, ih, hl, ih]
    cases alookup k f.2 <;> cases lastBound fs k <;> simp

theorem alookup_foldl_dictUpdate :
    ∀ (files : List (String × List (String × Json)))
      (init : List (String × Json)) (k : String),
      (∀ f ∈ files, (keysOf f.2).Nodup) →
      alookup k (files.foldl (fun acc f => dictUpdate acc f.2) init) =
        match lastBound files k with
        | some v => some v
        | none => alookup k init := by
  intro files
  induction files with
  | nil => intro init k _; rfl
  | cons f fs ih =>
    intro init k hnd
    have h1 :
        (f :: fs).foldl (fun acc g => dictUpdate acc g.2) init =
          fs.foldl (fun acc g => dictUpdate acc g.2) (dictUpdate init f.2) := rfl
    rw [h1, ih _ k (fun g hg => hnd g (List.mem_cons_of_mem f hg)),
      alookup_dictUpdate init f.2 k (hnd f (List.mem_cons_self f fs))]
    have hl :
        lastBound (f :: fs) k =
          match lastBound fs k with
          | some v => some v
          | none =>
            match alookup k f.2 with
            | some v => some v
            | none => none := by
      have h2 :
          lastBound (f :: fs) k =
            fs.foldl
              (fun acc g =>
                match alookup k g.2 with
                | some v => some v
                | none => acc)
              (match alookup k f.2 with
               | some v => some v
               | none => none) := rfl
      rw [h2, lastBound_acc]
    rw [hl]
    cases lastBound fs k <;> cases alookup k f.2 <;> simp

theorem alookup_setdefault_present {α : Type} (d : List (String × α))
    (key k : String) (dv v : α) (h : alookup k d = some v) :
    alookup k (setdefault d key dv) = some v := by
  rw [alookup_setdefault]
  by_cases hk : key = k
  · subst hk
    simp [h]
  · simp [hk, h]

theorem alookup_setdefault_self_absent {α : Type} (d : List (String × α))
    (key : String) (dv : α) (h : alookup key d = none) :
    alookup key (setdefault d key dv) = some dv := by
  rw [alookup_setdefault, if_pos rfl, h]

theorem alookup_setdefault_other {α : Type} (d : List (String × α))
    (key k : String) (dv : α) (h : key ≠ k) :
    alookup k (setdefault d key dv) = alookup k d := by
  rw [alookup_setdefault, if_neg h]

/-- The five category defaults of `load_lambda_config_from_folder`
(`lambda_builder.py:56-60`), in application order. -/
def lambdaDefaults (folder : LambdaFolder) : List (String × Json) :=
  [("name", .str folder.dirname),
   ("runtime", .str "python3.12"),
   ("memory", .num 256),
   ("timeout", .num 10),
   ("handler", .str "app.handler")]

end Odyssey

namespace Odyssey

theorem alookup_load_lambda_general (folder : LambdaFolder)
    (vars : List (String × String)) (k : String) (hk : k ≠ "code_path") :
    alookup k (load_lambda_config_from_folder folder vars) =
      (match alookup k (mergedFolderConf folder) with
       | some v => some v
       | none => alookup k (lambdaDefaults folder)).map
        (expand_placeholders vars) := by
  simp only [load_lambda_config_from_folder]
  rw [alookup_expandObj, alookup_dictSet, if_neg (Ne.symm hk)]
  cases hm : alookup k (mergedFolderConf folder) with
  | some v =>
    have h1 := alookup_setdefault_present (mergedFolderConf folder) "name" k
      (Json.str folder.dirname) v hm
    have h2 := alookup_setdefault_present _ "runtime" k (Json.str "python3.12") v h1
    have h3 := alookup_setdefault_present _ "memory" k (Json.num 256) v h2
    have h4 := alookup_setdefault_present _ "timeout" k (Json.num 10) v h3
    have h5 := alookup_setdefault_present _ "handler" k (Json.str "app.handler") v h4
    rw [h5]
  | none =>
    by_cases hname : k = "name"
    · subst hname
      rw [alookup_setdefault_other _ "handler" _ _ (by decide),
        alookup_setdefault_other _ "timeout" _ _ (by decide),
        alookup_setdefault_other _ "memory" _ _ (by decide),
        alookup_setdefault_other _ "runtime" _ _ (by decide),
        alookup_setdefault_self_absent _ _ _ hm]
      rfl
    · by_cases hruntime : k = "runtime"
      · subst hruntime
        have habs : alookup "runtime"
            (setdefault (mergedFolderConf folder) "name"
              (Json.str folder.dirname)) = none := by
          rw [alookup_setdefault_other _ "name" _ _ (by decide)]
          exact hm
        rw [alookup_setdefault_other _ "handler" _ _ (by decide),
          alookup_setdefault_other _ "timeout" _ _ (by decide),
          alookup_setdefault_other _ "memory" _ _ (by decide),
          alookup_setdefault_self_absent _ _ _ habs]
        rfl
      · by_cases hmemory : k = "memory"
        · subst hmemory
          have habs : alookup "memory"
              (setdefault
                (setdefault (mergedFolderConf folder) "name"
                  (Json.str folder.dirname))
                "runtime" (Json.str "python3.12")) = none := by
            rw [alookup_setdefault_other _ "runtime" _ _ (by decide),
              alookup_setdefault_other _ "name" _ _ (by decide)]
            exact hm
          rw [alookup_setdefault_other _ "handler" _ _ (by decide),
            alookup_setdefault_other _ "timeout" _ _ (by decide),
            alookup_setdefault_self_absent _ _ _ habs]
          rfl
        · by_cases htimeout : k = "timeout"
          · subst htimeout
            have habs : alookup "timeout"
                (setdefault
                  (setdefault
                    (setdefault (mergedFolderConf folder) "name"
                      (Json.str folder.dirname))
                    "runtime" (Json.str "python3.12"))
                  "memory" (Json.num 256)) = none := by
              rw [alookup_setdefault_other _ "memory" _ _ (by decide),
                alookup_setdefault_other _ "runtime" _ _ (by decide),
                alookup_setdefault_other _ "name" _ _ (by decide)]
              exact hm
            rw [alookup_setdefault_other _ "handler" _ _ (by decide),
              alookup_setdefault_self_absent _ _ _ habs]
            rfl
          · by_cases hhandler : k = "handler"
            · subst hhandler
              have habs : alookup "handler"
                  (setdefault
                    (setdefault
                      (setdefault
                        (setdefault (mergedFolderConf folder) "name"
                          (Json.str folder.dirname))
                        "runtime" (Json.str "python3.12"))
                      "memory" (Json.num 256))
                    "timeout" (Json.num 10)) = none := by
                rw [alookup_setdefault_other _ "timeout" _ _ (by decide),
                  alookup_setdefault_other _ "memory" _ _ (by decide),
                  alookup_setdefault_other _ "runtime" _ _ (by decide),
                  alookup_setdefault_other _ "name" _ _ (by decide)]
                exact hm
              rw [alookup_setdefault_self_absent _ _ _ habs]
              rfl
            · rw [alookup_setdefault_other _ "handler" _ _ (Ne.symm hhandler),
                alookup_setdefault_other _ "timeout" _ _ (Ne.symm htimeout),
                alookup_setdefault_other _ "memory" _ _ (Ne.symm hmemory),
                alookup_setdefault_other _ "runtime" _ _ (Ne.symm hruntime),
                alookup_setdefault_other _ "name" _ _ (Ne.symm hname),
                hm]
              have hdef : alookup k (lambdaDefaults folder) = none := by
                simp only [lambdaDefaults, alookup,
                  if_neg (Ne.symm hname), if_neg (Ne.symm hruntime),
                  if_neg (Ne.symm hmemory), if_neg (Ne.symm htimeout),
                  if_neg (Ne.symm hhandler)]
              rw [hdef]

end Odyssey

namespace Odyssey

/-- Claim C6: multi-part folder load order.  `sortedConfigFiles` puts the
folder's `config*.json` fragments in lexicographic filename order (sorted
and a permutation of the folder's files); the merged dict binds each key
to the last (latest-sorted) fragment's value for it; each of the five
defaults (`name` = folder name, `runtime` = python3.12, `memory` = 256,
`timeout` = 10, `handler` = app.handler) is applied only when the merged
files left the field absent; a field set by any config file is never
overwritten by a default; and placeholders are expanded last, after the
defaults are in — so a default value containing a `${}` token (the folder
name can) is expanded, as the last conjunct shows for `name`. -/
theorem C6_lambda_folder_merge :
    (∀ folder : LambdaFolder,
        (sortedConfigFiles folder).Pairwise (fun a b => strLeB a.1 b.1 = true) ∧
        (sortedConfigFiles folder).Perm folder.files) ∧
    (∀ (folder : LambdaFolder) (k : String) (v : Json),
        (∀ f ∈ folder.files, (keysOf f.2).Nodup) →
        lastBound (sortedConfigFiles folder) k = some v →
        alookup k (mergedFolderConf folder) = some v) ∧
    (∀ (folder : LambdaFolder) (vars : List (String × String))
        (f : String) (d : Json),
        (f, d) ∈ lambdaDefaults folder →
        alookup f (mergedFolderConf folder) = none →
        alookup f (load_lambda_config_from_folder folder vars) =
          some (expand_placeholders vars d)) ∧
    (∀ (folder : LambdaFolder) (vars : List (String × String))
        (k : String) (v : Json),
        alookup k (mergedFolderConf folder) = some v → k ≠ "code_path" →
        alookup k (load_lambda_config_from_folder folder vars) =
          some (expand_placeholders vars v)) ∧
    (∀ (folder : LambdaFolder) (vars : List (String × String)),
        alookup "name" (mergedFolderConf folder) = none →
        alookup "name" (load_lambda_config_from_folder folder vars) =
          some (.str (varSub vars folder.dirname))) := by
  refine ⟨?_, ?_, ?_, ?_, ?_⟩
  · intro folder
    unfold sortedConfigFiles
    exact ⟨sortBy_pairwise (fun f => f.1) folder.files,
      sortBy_perm (fun f => f.1) folder.files⟩
  · intro folder k v hnd hlast
    unfold sortedConfigFiles at hlast
    unfold mergedFolderConf sortedConfigFiles
    rw [alookup_foldl_dictUpdate _ [] k
      (fun g hg => hnd g ((sortBy_perm (fun f => f.1) folder.files).mem_iff.mp hg)),
      hlast]
  · intro folder vars f d hmem habsent
    simp only [lambdaDefaults, List.mem_cons, List.not_mem_nil, or_false] at hmem
    rcases hmem with h | h | h | h | h <;>
      (rw [Prod.mk.injEq] at h; obtain ⟨rfl, rfl⟩ := h) <;>
      rw [alookup_load_lambda_general folder vars _ (by decide), habsent] <;> rfl
  · intro folder vars k v hmerged hk
    rw [alookup_load_lambda_general folder vars k hk, hmerged]
    rfl
  · intro folder vars habsent
    rw [alookup_load_lambda_general folder vars _ (by decide), habsent]
    rfl

end Odyssey

namespace Odyssey

/-- Counterexample to claim C7: with the actual `lru_cache(maxsize=1)`, a
call for another scope in between evicts the single entry, so the third
call — same scope as the first — resolves afresh and returns a different
object (result id 2, not the first call's 0). -/
theorem C7_interleaved_scope_evicts :
    runGetCfgCalls [0, 1, 0] ⟨none, 0⟩ = [0, 1, 2] ∧
    (runGetCfgCalls [0, 1, 0] ⟨none, 0⟩).getD 0 99 ≠
      (runGetCfgCalls [0, 1, 0] ⟨none, 0⟩).getD 2 99 :=
  ⟨rfl, by decide⟩

/-- Claim C7 as amended: `get_cfg` is memoized with a single-entry cache
(`lru_cache(maxsize=1)`), so a later call with the same scope returns the
identical cached object as long as no call with a different scope
intervenes — consecutive same-scope calls are referentially stable; an
intervening different-scope call evicts the entry and the next same-scope
call returns a fresh object (see the counterexample). -/
theorem C7_consecutive_same_scope_stability (st : CfgCache) (scope r : Nat)
    (st' : CfgCache) (h : get_cfg_cached st scope = (r, st')) :
    get_cfg_cached st' scope = (r, st') := by
  rcases st with ⟨entry, nextId⟩
  rcases entry with _ | ⟨sc, rr⟩
  · simp only [get_cfg_cached] at h
    rw [Prod.mk.injEq] at h
    obtain ⟨rfl, rfl⟩ := h
    simp [get_cfg_cached]
  · by_cases hsc : sc = scope
    · subst hsc
      simp only [get_cfg_cached, if_pos rfl] at h
      rw [Prod.mk.injEq] at h
      obtain ⟨rfl, rfl⟩ := h
      simp [get_cfg_cached]
    · simp only [get_cfg_cached, if_neg hsc] at h
      rw [Prod.mk.injEq] at h
      obtain ⟨rfl, rfl⟩ := h
      simp [get_cfg_cached]

/-- Witness for the amended C7 at a concrete input: a miss for scope 5
followed by a hit. -/
theorem C7_consecutive_same_scope_stability_witness :
    get_cfg_cached ⟨none, 0⟩ 5 = (0, ⟨some (5, 0), 1⟩) ∧
    get_cfg_cached ⟨some (5, 0), 1⟩ 5 = (0, ⟨some (5, 0), 1⟩) :=
  ⟨rfl, C7_consecutive_same_scope_stability ⟨none, 0⟩ 5 0 ⟨some (5, 0), 1⟩ rfl⟩

theorem except_ok_bind {α β : Type} (a : α) (f : α → Except String β) :
    (Except.ok a >>= f : Except String β) = f a := rfl

theorem except_error_bind {α β : Type} (e : String) (f : α → Except String β) :
    ((Except.error e : Except String α) >>= f) = Except.error e := rfl

theorem except_pure {α : Type} (a : α) : (pure a : Except String α) = Except.ok a := rfl

/-- A grant entry the grant loop passes over without error: a dict whose
`table` is a string registered in the table registry and whose `access`
is absent, falsy or a string. -/
def grantResolves (g : Json) (tables : List (String × TableSpec)) : Prop :=
  ∃ (entries : List (String × Json)) (t : String),
    g = .obj entries ∧ alookup "table" entries = some (.str t) ∧
    (alookup t tables).isSome = true ∧
    (match alookup "access" entries with
     | none => True
     | some a => pyFalsy a = true ∨ ∃ s, a = .str s)

theorem grant_table_access_cons_resolves (g : Json)
    (tables : List (String × TableSpec)) (gs : List Json)
    (h : grantResolves g tables) :
    ∃ e, grant_table_access (g :: gs) tables =
      (grant_table_access gs tables).map fun rest => e :: rest := by
  obtain ⟨entries, t, rfl, htab, hsome, hacc⟩ := h
  obtain ⟨ts, hts⟩ := Option.isSome_iff_exists.mp hsome
  have hmap : ∀ (e : String × Access),
      ((grant_table_access gs tables).bind fun rest =>
        Except.ok (e :: rest)) =
      (grant_table_access gs tables).map fun rest => e :: rest := by
    intro e
    cases grant_table_access gs tables <;> rfl
  cases hal : alookup "access" entries with
  | none =>
    refine ⟨(t, Access.readWrite), ?_⟩
    simp only [grant_table_access, asObjE, except_ok_bind, htab, hal, hts,
      except_pure]
    rw [show (if ("readwrite" : String) = "read" then Access.read
      else if ("readwrite" : String) = "write" then Access.write
      else Access.readWrite) = Access.readWrite by decide]
    exact hmap (t, Access.readWrite)
  | some a =>
    rw [hal] at hacc
    by_cases hfal : pyFalsy a = true
    · refine ⟨(t, Access.readWrite), ?_⟩
      simp only [grant_table_access, asObjE, except_ok_bind, htab, hal, hts,
        hfal, if_pos, except_pure]
      rw [show (if ("readwrite" : String) = "read" then Access.read
        else if ("readwrite" : String) = "write" then Access.write
        else Access.readWrite) = Access.readWrite by decide]
      exact hmap (t, Access.readWrite)
    · rcases hacc with hacc | ⟨s, rfl⟩
      · exact absurd hacc hfal
      · refine ⟨(t,
          if strLower s = "read" then Access.read
          else if strLower s = "write" then Access.write
          else Access.readWrite), ?_⟩
        simp only [grant_table_access, asObjE, except_ok_bind, htab, hal, hts,
          if_neg hfal, except_pure]
        exact hmap _

/-- The lambda folder of the concrete dangling-grant scenario: its one
fragment grants read on the unregistered logical name `ghost`. -/
def ghostGrantFolder : LambdaFolder :=
  { dirname := "chat"
    path := "lambda_src/chat"
    hasApp := true
    files := [("config.json",
      [("dynamodb_access",
        .arr [.obj [("table", .str "ghost"), ("access", .str "read")]])])] }

/-- Claim C8: dangling reference detection.  A grant whose `table` logical
name is not a key of the table registry makes `grant_table_access` raise
`KeyError` naming that logical name (first conjunct: the first
non-resolving grant after any run of resolving ones); a route integration
whose `lambda_name` is not in the fleet registry makes
`validate_lambda_exists` raise `KeyError` naming that lambda; and a fleet
whose folder carries such a grant aborts with that error, giving back no
function registry (concrete third conjunct). -/
theorem C8_dangling_reference_detection :
    (∀ (tables : List (String × TableSpec)) (gs1 gs2 : List Json)
        (entries : List (String × Json)) (t : String),
        (∀ g' ∈ gs1, grantResolves g' tables) →
        alookup "table" entries = some (.str t) →
        (match alookup "access" entries with
         | none => True
         | some a => pyFalsy a = true ∨ ∃ s, a = .str s) →
        alookup t tables = none →
        grant_table_access (gs1 ++ .obj entries :: gs2) tables =
          .error ("Table logical name '" ++ t ++ "' not found for grants.")) ∧
    (∀ (lambdas : List (String × LambdaSpec)) (name context : String),
        alookup name lambdas = none →
        validate_lambda_exists name lambdas context =
          .error (context ++ " lambda '" ++ name ++ "' not found in lambdas map")) ∧
    lambdaFleetInit [ghostGrantFolder] demoVars [] =
      .error "Table logical name 'ghost' not found for grants." ∧
    grant_table_access [.obj [("table", .str "ghost"), ("access", .str "read")]] [] =
      .error "Table logical name 'ghost' not found for grants." := by
  refine ⟨?_, ?_, rfl, rfl⟩
  · intro tables gs1
    induction gs1 with
    | nil =>
      intro gs2 entries t _ htab hacc hnone
      cases hal : alookup "access" entries with
      | none =>
        simp only [List.nil_append, grant_table_access, asObjE, except_ok_bind,
          htab, hal, hnone]
      | some a =>
        rw [hal] at hacc
        by_cases hfal : pyFalsy a = true
        · simp only [List.nil_append, grant_table_access, asObjE, except_ok_bind,
            htab, hal, hfal, if_pos, hnone]
        · rcases hacc with hacc | ⟨s, rfl⟩
          · exact absurd hacc hfal
          · simp only [List.nil_append, grant_table_access, asObjE, except_ok_bind,
              htab, hal, if_neg hfal, hnone]
    | cons g' gs1' ih =>
      intro gs2 entries t hres htab hacc hnone
      have hres' : grantResolves g' tables := hres g' (List.mem_cons_self g' gs1')
      obtain ⟨e, he⟩ :=
        grant_table_access_cons_resolves g' tables (gs1' ++ .obj entries :: gs2) hres'
      rw [List.cons_append, he,
        ih gs2 entries t (fun g hg => hres g (List.mem_cons_of_mem g' hg)) htab hacc hnone]
      rfl
  · intro lambdas name context h
    simp [validate_lambda_exists, h]

end Odyssey

namespace Odyssey

/-- Claim C9: the required-fields and required-shape checks test key
presence only, never the value.  Any dict whose required keys are all
present passes `validate_required_fields` whatever the values; a field
present as a dict whose required subfields are all present (values
arbitrary, also null) passes `validate_field_structure`; and concretely a
table configuration with `"pitr": null` — and null key-attribute
subfields — passes `validate_table_config`. -/
theorem C9_presence_only_validation :
    (∀ (data : List (String × Json)) (required : List String)
        (context : String),
        (∀ f ∈ required, (alookup f data).isSome = true) →
        validate_required_fields data required context = .ok ()) ∧
    (∀ (data : List (String × Json)) (field_name : String)
        (subs : List String) (context : String)
        (entries : List (String × Json)),
        alookup field_name data = some (.obj entries) →
        (∀ s ∈ subs, (alookup s entries).isSome = true) →
        validate_field_structure data field_name subs context = .ok ()) ∧
    validate_required_fields [("pitr", Json.null)] ["pitr"] "Table" = .ok () ∧
    validate_table_config
      [("table_name", .str "msgs"),
       ("partition_key", .obj [("name", .null), ("type", .null)]),
       ("billing_mode", .str "PAY_PER_REQUEST"),
       ("pitr", .null),
       ("kms_alias", .str "alias/msgs")] "messages" = .ok () := by
  refine ⟨?_, ?_, rfl, rfl⟩
  · intro data required context h
    have hfil : required.filter (fun f => (alookup f data).isNone) = [] := by
      rw [List.filter_eq_nil_iff]
      intro f hf
      rcases Option.isSome_iff_exists.mp (h f hf) with ⟨v, hv⟩
      simp [hv]
    simp [validate_required_fields, hfil]
  · intro data field_name subs context entries hfield h
    have hfil : subs.filter (fun s => (alookup s entries).isNone) = [] := by
      rw [List.filter_eq_nil_iff]
      intro s hs
      rcases Option.isSome_iff_exists.mp (h s hs) with ⟨v, hv⟩
      simp [hv]
    simp [validate_field_structure, hfield, hfil]

/-- Claim C10: the resolved environment name is always lower-cased before
it is stored and before the per-environment context block is looked up
(`get_cfg` reads `ctx[envNameOf ...]`, see its definition), so the
resolved name never equals a key containing an ASCII upper-case letter —
such a section is never found — and the `EnvName` placeholder variable
produced by `OdysseyCfg.vars` is that same lower-case name (whenever the
caller's `extra` does not override it, which the cited lines never do). -/
theorem C10_env_name_lowercased :
    (∀ (ctx : List (String × Json)) (envOverride : Option String)
        (raw : String), rawEnvName ctx envOverride = .ok raw →
        envNameOf ctx envOverride = .ok (strLower raw)) ∧
    (∀ (ctx : List (String × Json)) (envOverride : Option String)
        (name : String), envNameOf ctx envOverride = .ok name →
        noUpper name) ∧
    (∀ (ctx : List (String × Json)) (envOverride : Option String)
        (name k : String), envNameOf ctx envOverride = .ok name →
        (∃ c ∈ k.data, isUpperAscii c = true) → name ≠ k) ∧
    (∀ (ctx : List (String × Json)) (envOverride : Option String)
        (cfg : OdysseyCfg), get_cfg ctx envOverride = .ok cfg →
        envNameOf ctx envOverride = .ok cfg.env.name) ∧
    (∀ (cfg : OdysseyCfg) (sa sr : Option String) (pt : String)
        (extra : List (String × String)),
        alookup "EnvName" (extra.map fun kv => (kv.1, Json.str kv.2)) = none →
        alookup "EnvName" (cfg.vars sa sr pt extra) =
          some (.str cfg.env.name)) := by
  refine ⟨?_, ?_, ?_, ?_, ?_⟩
  · intro ctx envOverride raw h
    unfold envNameOf
    rw [h]
    rfl
  · intro ctx envOverride name h
    unfold envNameOf at h
    cases hr : rawEnvName ctx envOverride with
    | error e => rw [hr] at h; exact absurd h (by simp [Except.map])
    | ok raw =>
      rw [hr] at h
      simp only [Except.map, Except.ok.injEq] at h
      rw [← h]
      exact noUpper_strLower raw
  · intro ctx envOverride name k h hex heq
    obtain ⟨c, hc, hup⟩ := hex
    have hno : noUpper name := by
      unfold envNameOf at h
      cases hr : rawEnvName ctx envOverride with
      | error e =>
        rw [hr] at h
        exact absurd h (by simp [Except.map])
      | ok raw =>
        rw [hr] at h
        simp only [Except.map, Except.ok.injEq] at h
        rw [← h]
        exact noUpper_strLower raw
    rw [heq] at hno
    have hfalse := hno c hc
    rw [hup] at hfalse
    simp at hfalse
  · intro ctx envOverride cfg hok
    unfold get_cfg at hok
    cases hr : envNameOf ctx envOverride with
    | error e =>
      rw [hr] at hok
      exact absurd hok (by simp [except_error_bind])
    | ok name =>
      rw [hr, except_ok_bind] at hok
      have hgen : ∀ (m : Except String Unit) (r : OdysseyCfg),
          (m >>= fun _ => (pure r : Except String OdysseyCfg)) = .ok cfg →
          cfg = r := by
        intro m r hmr
        cases m with
        | error e => rw [except_error_bind] at hmr; exact absurd hmr (by simp)
        | ok u =>
          rw [except_ok_bind, except_pure] at hmr
          cases hmr
          rfl
      have hcfg := hgen _ _ hok
      rw [hcfg]
  · intro cfg sa sr pt extra hex
    unfold OdysseyCfg.vars
    rw [alookup_dictUpdate_of_absent _ _ _ hex]
    rcases hci : cfg.env.connection_id with _ | cid <;>
      rcases hca : EnvCfg.resolved_connection_arn cfg.env with _ | arn <;>
        simp only [hci, hca] <;> (try split_ifs) <;>
        simp [alookup_append, alookup]

end Odyssey
